import Mathlib

/-!
Verification of the ATS-Optimizer core (src/atsmodified.py) against its
specification.  The Python program is shallowly embedded: strings are Lean
`String`s, pages of the uploaded PDF are the `Option String` results of
`page.extract_text()` (None modelling an extraction failure), exceptions are
`Except`/`Option` results.  Python's built-in string operations used by the
program (`str.strip`, `str.splitlines`, `str.isdigit`, `str.join`, `int(...)`)
are modelled over the character repertoire the program exercises (ASCII plus
the Unicode superscript digits, which Python classifies as digits).
-/

/-- Python `str.strip()` whitespace test, restricted to the ASCII whitespace
characters (space, tab, newline, carriage return, vertical tab, form feed). -/
def pyIsSpace (c : Char) : Bool :=
  c == ' ' || c == '\t' || c == '\n' || c == '\r' || c == '\x0b' || c == '\x0c'

/-- Python `str.strip()` on a character list: drop whitespace from both ends. -/
def pyStripL (l : List Char) : List Char :=
  ((l.dropWhile pyIsSpace).reverse.dropWhile pyIsSpace).reverse

/-- Python `str.strip()`. -/
def pyStrip (s : String) : String :=
  ⟨pyStripL s.data⟩

/-- Helper for `str.splitlines`: accumulate the current line (reversed) and
split at newline, carriage return, or the CRLF pair, without producing a
trailing empty line for a trailing line break. -/
def pySplitAux : List Char → List Char → List (List Char)
  | [], acc => if acc.isEmpty then [] else [acc.reverse]
  | '\r' :: '\n' :: rest, acc => acc.reverse :: pySplitAux rest []
  | '\n' :: rest, acc => acc.reverse :: pySplitAux rest []
  | '\r' :: rest, acc => acc.reverse :: pySplitAux rest []
  | c :: rest, acc => pySplitAux rest (c :: acc)

/-- Python `str.splitlines()` (on the line-break characters the program can
meet in practice: LF, CR, CRLF). -/
def pySplitlines (s : String) : List String :=
  (pySplitAux s.data []).map (fun l => ⟨l⟩)

/-- Unicode superscript digit characters: Python's `str.isdigit` classifies
them as digits, but `int(...)` rejects them (they are not decimal digits). -/
def isSuperscriptDigit (c : Char) : Bool :=
  c == '⁰' || c == '¹' || c == '²' || c == '³' || c == '⁴' ||
    c == '⁵' || c == '⁶' || c == '⁷' || c == '⁸' || c == '⁹'

/-- Python `ch.isdigit()`, modelled over the ASCII decimal digits together
with the superscript digits.  (`str.isdigit` accepts further Unicode digit
characters; the decisive fact modelled here is that it accepts strictly more
than `int(...)` does.) -/
def pyIsDigit (c : Char) : Bool :=
  c.isDigit || isSuperscriptDigit c

/-- Numeric value of an ASCII decimal digit character. -/
def digitVal (c : Char) : Nat :=
  c.toNat - '0'.toNat

/-- Value of a decimal digit string, most significant digit first. -/
def decDigitsToNat (l : List Char) : Nat :=
  l.foldl (fun a c => a * 10 + digitVal c) 0

/-- The unsigned part of Python `int(str)`: a non-empty run consisting solely
of decimal digit characters; anything else (in particular a superscript
digit) raises ValueError, modelled as `none`. -/
def pyIntAbs (l : List Char) : Option Nat :=
  if l.isEmpty then none
  else if l.all Char.isDigit then some (decDigitsToNat l) else none

/-- Python `int(str)`: surrounding whitespace is stripped, an optional sign is
allowed, then a non-empty run of decimal digits; `none` models ValueError. -/
def pyIntL (l : List Char) : Option Int :=
  match pyStripL l with
  | [] => none
  | c :: rest =>
    if c == '+' then (pyIntAbs rest).map (fun n => (n : Int))
    else if c == '-' then (pyIntAbs rest).map (fun n => -(n : Int))
    else (pyIntAbs (c :: rest)).map (fun n => (n : Int))

/-- Python `int(str)` on a `String`. -/
def pyInt (s : String) : Option Int :=
  pyIntL s.data

/-- Python `sep.join(list)`. -/
def pyJoin (sep : String) : List String → String
  | [] => ""
  | [t] => t
  | t :: ts => t ++ sep ++ pyJoin sep ts

/-!  The Score Parser: the inline parsing code of the `submit3` branch,
src/atsmodified.py lines 217-230.  -/

/-- Lines 217-218: `lines = response.strip().splitlines()` and
`first_line = lines[0].strip() if lines else ""`. -/
def submit3FirstLine (response : String) : String :=
  match pySplitlines (pyStrip response) with
  | [] => ""
  | l :: _ => pyStrip l

/-- Line 219: `digits = "".join(ch for ch in first_line if ch.isdigit())`. -/
def submit3Digits (response : String) : String :=
  ⟨(submit3FirstLine response).data.filter pyIsDigit⟩

/-- Lines 221-226: `score = None; if digits: try: score = int(digits)
except ValueError: score = None`.  The `none` branch of the inner match is
the `except ValueError` fallback. -/
def submit3Score (response : String) : Option Int :=
  let digits := submit3Digits response
  if digits.data.isEmpty then none
  else
    match pyInt digits with
    | some n => some n
    | none => none

/-- Line 230: the score actually reported, `score is not None and
0 <= score <= 100`; out-of-range or unparsed scores are absent (the warning
branch). -/
def submit3MatchScore (response : String) : Option Int :=
  match submit3Score response with
  | some s => if 0 ≤ s ∧ s ≤ 100 then some s else none
  | none => none

/-- The Score Parser exactly as claim C1 words it: split the raw response
into lines, take the first line (the empty string if there are none), keep
its digit characters in order, and parse the digit string only when it is
non-empty.  (No stripping of the response before splitting.) -/
def claimedC1Score (response : String) : Option Int :=
  let first :=
    match pySplitlines response with
    | [] => ""
    | l :: _ => l
  let digits : String := ⟨first.data.filter pyIsDigit⟩
  if digits.data.isEmpty then none else pyInt digits

/-- Claim C1 as amended: identical pipeline, except that the response is
first stripped of leading and trailing whitespace before being split into
lines (the first line itself need not be re-stripped for digit extraction). -/
def amendedC1Score (response : String) : Option Int :=
  let first :=
    match pySplitlines (pyStrip response) with
    | [] => ""
    | l :: _ => l
  let digits : String := ⟨first.data.filter pyIsDigit⟩
  if digits.data.isEmpty then none else pyInt digits

/-!  The Text Extractor: `extract_text_from_pdf`, src/atsmodified.py
lines 22-50.  A document handle is modelled as the list of its pages'
`page.extract_text()` results (`none` for an extraction returning None,
turned into `""` by the source's `or ""`). -/

/-- The two exceptions `extract_text_from_pdf` can raise:
`FileNotFoundError("No file uploaded")` and `ValueError("No text could be
extracted from the PDF. ...")`. -/
inductive ExtractError where
  | missingInput
  | noExtractableText
deriving DecidableEq

/-- Line 42: the labelled per-page block
`f"--- Page {i+1} ---\n{page_text.strip()}"`, applied to the already
stripped page text. -/
def pageBlock (i : Nat) (t : String) : String :=
  "--- Page " ++ toString (i + 1) ++ " ---\n" ++ t

/-- Line 37: the loop's exit test `max_pages is not None and i >= max_pages`. -/
def breakAt (max_pages : Option Nat) (i : Nat) : Bool :=
  match max_pages with
  | some m => decide (m ≤ i)
  | none => false

/-- Lines 36-42: the page loop.  Walks the pages in order carrying the page
index `i`, stops at the cap, skips pages whose text strips to empty, and
collects the labelled blocks of the others. -/
def extractLoop (pages : List (Option String)) (max_pages : Option Nat)
    (i : Nat) : List String :=
  match pages with
  | [] => []
  | p :: rest =>
    if breakAt max_pages i then []
    else
      let page_text := p.getD ""
      if pyStrip page_text = "" then extractLoop rest max_pages (i + 1)
      else pageBlock i (pyStrip page_text) :: extractLoop rest max_pages (i + 1)

/-- Lines 22-50: `extract_text_from_pdf(uploaded_file, max_pages)`.  `none`
for `uploaded_file` models `None` (no upload); the seek/reader plumbing is
side-effect-only and has no observable part here. -/
def extract_text_from_pdf (uploaded_file : Option (List (Option String)))
    (max_pages : Option Nat) : Except ExtractError String :=
  match uploaded_file with
  | none => Except.error ExtractError.missingInput
  | some pages =>
    let texts := extractLoop pages max_pages 0
    let full_text := pyStrip (pyJoin "\n\n" texts)
    if full_text = "" then Except.error ExtractError.noExtractableText
    else Except.ok full_text

/-- The number of pages actually scanned: the cap when one is given,
otherwise the whole document. -/
def specCap (max_pages : Option Nat) (numPages : Nat) : Nat :=
  match max_pages with
  | some m => m
  | none => numPages

/-- Declarative form of one step of the page loop, on an (index, page) pair:
`none` for a page whose text strips to empty, otherwise its labelled block. -/
def specBlock (ip : Nat × Option String) : Option String :=
  let t := pyStrip (ip.2.getD "")
  if t = "" then none else some (pageBlock ip.1 t)

/-- Declarative form of the extractor's body, following the spec's words:
the pages up to the cap, in order, each paired with its index, whitespace-only
pages dropped, the rest rendered as labelled blocks. -/
def specBlocks (pages : List (Option String)) (max_pages : Option Nat) :
    List String :=
  ((pages.take (specCap max_pages pages.length)).enum).filterMap specBlock

/-!  The Response Requester: `get_gemini_response`, src/atsmodified.py
lines 57-81.  The observable part modelled here is the ordered list of text
parts submitted to the external service (lines 66-78). -/

/-- Lines 66-78: the ordered request parts.  The guard mirrors
`if jd_text and jd_text.strip():` (Python truthiness: non-empty). -/
def get_gemini_response_parts (jd_text resume_text instruction : String) :
    List String :=
  [ instruction,
    if jd_text ≠ "" ∧ pyStrip jd_text ≠ "" then
      "Job Description:\n" ++ pyStrip jd_text
    else
      "No job description provided. Assume a generic technical role.",
    "Candidate Resume (extracted from PDF):\n" ++ resume_text ]

/-- The request exactly as claim C8 words it: instruction, then the
job-description text itself — the fallback sentence when it is empty or
whitespace-only, otherwise the trimmed text passed through unlabelled —
then the labelled resume text. -/
def claimedC8Parts (jd_text resume_text instruction : String) : List String :=
  [ instruction,
    if pyStrip jd_text = "" then
      "No job description provided. Assume a generic technical role."
    else
      pyStrip jd_text,
    "Candidate Resume (extracted from PDF):\n" ++ resume_text ]

/-- Claim C8 as amended: the job-description part carries the fixed
`Job Description:` label and a newline in front of the trimmed text; the
fallback sentence replaces the whole part when the text is empty or
whitespace-only. -/
def amendedC8Parts (jd_text resume_text instruction : String) : List String :=
  [ instruction,
    if pyStrip jd_text = "" then
      "No job description provided. Assume a generic technical role."
    else
      "Job Description:\n" ++ pyStrip jd_text,
    "Candidate Resume (extracted from PDF):\n" ++ resume_text ]

/-!  Helper lemmas about the Python string model.  -/

theorem strMk_eq_empty_iff (l : List Char) : (⟨l⟩ : String) = "" ↔ l = [] := by
  constructor
  · intro h
    exact congrArg String.data h
  · intro h
    subst h
    rfl

theorem pyStrip_data (s : String) : (pyStrip s).data = pyStripL s.data := rfl

theorem pyStrip_eq_empty_iff (s : String) :
    pyStrip s = "" ↔ pyStripL s.data = [] :=
  strMk_eq_empty_iff (pyStripL s.data)

theorem pyIsSpace_not_digit (c : Char) (h : pyIsSpace c = true) :
    pyIsDigit c = false := by
  simp only [pyIsSpace, Bool.or_eq_true, beq_iff_eq] at h
  rcases h with ((((h | h) | h) | h) | h) | h <;> subst h <;> decide

theorem filter_dropWhile_of_excl (p q : Char → Bool)
    (hpq : ∀ c, q c = true → p c = false) :
    ∀ l : List Char, (l.dropWhile q).filter p = l.filter p := by
  intro l
  induction l with
  | nil => rfl
  | cons c rest ih =>
    by_cases hq : q c = true
    · rw [List.dropWhile_cons_of_pos hq, ih, List.filter_cons_of_neg]
      simp [hpq c hq]
    · rw [List.dropWhile_cons_of_neg (by simp [hq])]

theorem filter_pyStripL (l : List Char) :
    (pyStripL l).filter pyIsDigit = l.filter pyIsDigit := by
  unfold pyStripL
  rw [List.filter_reverse, filter_dropWhile_of_excl pyIsDigit pyIsSpace
    pyIsSpace_not_digit, List.filter_reverse, List.reverse_reverse,
    filter_dropWhile_of_excl pyIsDigit pyIsSpace pyIsSpace_not_digit]

theorem head?_dropWhile_false (p : Char → Bool) (l : List Char) (c : Char)
    (h : (l.dropWhile p).head? = some c) : p c = false := by
  have := List.head?_dropWhile_not p l
  rw [h] at this
  exact this

theorem dropWhile_eq_self_of_head (p : Char → Bool) (l : List Char) (c : Char)
    (hc : l.head? = some c) (hp : p c = false) : l.dropWhile p = l := by
  cases l with
  | nil => rfl
  | cons a rest =>
    simp only [List.head?_cons, Option.some.injEq] at hc
    subst hc
    exact List.dropWhile_cons_of_neg (by simp [hp])

theorem pyStripL_getLast (l : List Char) (c : Char)
    (h : (pyStripL l).getLast? = some c) : pyIsSpace c = false := by
  unfold pyStripL at h
  rw [List.getLast?_reverse] at h
  exact head?_dropWhile_false pyIsSpace _ c h

theorem pyStripL_head (l : List Char) (c : Char)
    (h : (pyStripL l).head? = some c) : pyIsSpace c = false := by
  unfold pyStripL at h
  rw [List.head?_reverse] at h
  obtain ⟨pre, hpre⟩ :=
    @List.dropWhile_suffix Char ((l.dropWhile pyIsSpace).reverse) pyIsSpace
  have hne : (l.dropWhile pyIsSpace).reverse.dropWhile pyIsSpace ≠ [] := by
    intro hnil
    rw [hnil] at h
    exact Option.noConfusion h
  have : ((l.dropWhile pyIsSpace).reverse).getLast? = some c := by
    rw [← hpre, List.getLast?_append_of_ne_nil pre hne, h]
  rw [List.getLast?_reverse] at this
  exact head?_dropWhile_false pyIsSpace l c this

theorem pyStripL_eq_nil_iff (l : List Char) :
    pyStripL l = [] ↔ ∀ c ∈ l, pyIsSpace c = true := by
  unfold pyStripL
  rw [List.reverse_eq_nil_iff, List.dropWhile_eq_nil_iff]
  constructor
  · intro h c hc
    by_cases hmem : c ∈ l.dropWhile pyIsSpace
    · exact h c (by simpa using hmem)
    · have hsplit := List.takeWhile_append_dropWhile pyIsSpace l
      rw [← hsplit] at hc
      rcases List.mem_append.mp hc with htk | hdw
      · exact List.mem_takeWhile_imp htk
      · exact absurd hdw hmem
  · intro h c hc
    have : c ∈ l.dropWhile pyIsSpace := by simpa using hc
    exact h c (((List.dropWhile_suffix pyIsSpace).subset) this)

theorem pyStripL_eq_self (l : List Char) (a b : Char)
    (ha : l.head? = some a) (hsa : pyIsSpace a = false)
    (hb : l.getLast? = some b) (hsb : pyIsSpace b = false) :
    pyStripL l = l := by
  unfold pyStripL
  rw [dropWhile_eq_self_of_head pyIsSpace l a ha hsa]
  rw [dropWhile_eq_self_of_head pyIsSpace l.reverse b (by
    rw [List.head?_reverse]; exact hb) hsb]
  exact List.reverse_reverse l

theorem pyJoin_mem_decomp (sep : String) :
    ∀ (ts : List String) (t : String), t ∈ ts →
      ∃ pre post : String, pyJoin sep ts = pre ++ t ++ post := by
  intro ts
  induction ts with
  | nil =>
    intro t ht
    exact absurd ht (List.not_mem_nil t)
  | cons t1 rest ih =>
    intro t ht
    cases rest with
    | nil =>
      have : t = t1 := by simpa using ht
      subst this
      refine ⟨"", "", ?_⟩
      apply String.ext
      simp [pyJoin, String.data_append]
    | cons t2 rest2 =>
      rcases List.mem_cons.mp ht with heq | hmem
      · subst heq
        refine ⟨"", sep ++ pyJoin sep (t2 :: rest2), ?_⟩
        apply String.ext
        simp [pyJoin, String.data_append]
      · obtain ⟨pre, post, hpp⟩ := ih t hmem
        refine ⟨t1 ++ sep ++ pre, post, ?_⟩
        apply String.ext
        simp [pyJoin, hpp, String.data_append]

theorem pyJoin_head? (sep : String) (t : String) (rest : List String)
    (ht : t.data ≠ []) :
    (pyJoin sep (t :: rest)).data.head? = t.data.head? := by
  cases rest with
  | nil => rfl
  | cons t2 rest2 =>
    show ((t ++ sep ++ pyJoin sep (t2 :: rest2)).data).head? = t.data.head?
    rw [String.data_append, String.data_append, List.append_assoc,
      List.head?_append]
    cases hd : t.data with
    | nil => exact absurd hd ht
    | cons c k => rfl

theorem pyJoin_getLast? (sep : String) :
    ∀ (ts : List String), ts ≠ [] → (∀ t ∈ ts, t.data ≠ []) →
      ∃ t ∈ ts, (pyJoin sep ts).data.getLast? = t.data.getLast? := by
  intro ts
  induction ts with
  | nil => intro h; exact absurd rfl h
  | cons t1 rest ih =>
    intro _ hne
    cases rest with
    | nil => exact ⟨t1, List.mem_singleton.mpr rfl, rfl⟩
    | cons t2 rest2 =>
      obtain ⟨t, htmem, hlast⟩ := ih (List.cons_ne_nil t2 rest2)
        (fun u hu => hne u (List.mem_cons_of_mem t1 hu))
      refine ⟨t, List.mem_cons_of_mem t1 htmem, ?_⟩
      have hJ : (pyJoin sep (t2 :: rest2)).data ≠ [] := by
        intro hnil
        rw [hnil] at hlast
        have : t.data = [] := by
          simpa using (List.getLast?_eq_none_iff.mp hlast.symm)
        exact hne t (List.mem_cons_of_mem t1 htmem) this
      show ((t1 ++ sep ++ pyJoin sep (t2 :: rest2)).data).getLast? =
        t.data.getLast?
      rw [String.data_append,
        List.getLast?_append_of_ne_nil _ hJ,
        hlast]

theorem pageBlock_data (i : Nat) (t : String) :
    (pageBlock i t).data =
      ("--- Page " ++ toString (i + 1) ++ " ---\n").data ++ t.data := by
  unfold pageBlock
  rw [← String.data_append]

theorem pageBlock_head? (i : Nat) (t : String) :
    (pageBlock i t).data.head? = some '-' := by
  rw [pageBlock_data]
  rw [String.data_append, String.data_append]
  rfl

theorem pageBlock_getLast? (i : Nat) (t : String) (ht : t.data ≠ []) :
    (pageBlock i t).data.getLast? = t.data.getLast? := by
  rw [pageBlock_data]
  exact List.getLast?_append_of_ne_nil _ ht

theorem pageBlock_data_ne_nil (i : Nat) (t : String) :
    (pageBlock i t).data ≠ [] := by
  intro h
  have := congrArg List.head? h
  rw [pageBlock_head?] at this
  exact Option.noConfusion this

theorem extractLoop_eq (mp : Option Nat) :
    ∀ (pages : List (Option String)) (i : Nat),
      extractLoop pages mp i =
        ((pages.take (match mp with
          | some m => m - i
          | none => pages.length)).enumFrom i).filterMap specBlock := by
  intro pages
  induction pages with
  | nil =>
    intro i
    cases mp <;> simp [extractLoop]
  | cons p rest ih =>
    intro i
    cases mp with
    | none =>
      show extractLoop (p :: rest) none i = _
      rw [extractLoop]
      have hbr : breakAt none i = false := rfl
      rw [hbr]
      simp only [Bool.false_eq_true, if_false, List.length_cons,
        List.take_succ_cons, List.enumFrom, List.filterMap_cons]
      by_cases hstrip : pyStrip (p.getD "") = ""
      · have hsb : specBlock (i, p) = none := by
          simp [specBlock, hstrip]
        rw [hsb, if_pos hstrip, ih (i + 1)]
      · have hsb : specBlock (i, p) = some (pageBlock i (pyStrip (p.getD ""))) := by
          simp [specBlock, hstrip]
        rw [hsb, if_neg hstrip, ih (i + 1)]
    | some m =>
      show extractLoop (p :: rest) (some m) i = _
      rw [extractLoop]
      by_cases hm : m ≤ i
      · have hbr : breakAt (some m) i = true := by
          simp [breakAt, hm]
        rw [hbr]
        have : m - i = 0 := Nat.sub_eq_zero_of_le hm
        simp [this]
      · have hbr : breakAt (some m) i = false := by
          simp [breakAt, hm]
        rw [hbr]
        have hmi : m - i = (m - (i + 1)) + 1 := by omega
        simp only [Bool.false_eq_true, if_false, hmi, List.take_succ_cons,
          List.enumFrom, List.filterMap_cons]
        by_cases hstrip : pyStrip (p.getD "") = ""
        · have hsb : specBlock (i, p) = none := by
            simp [specBlock, hstrip]
          rw [hsb, if_pos hstrip, ih (i + 1)]
        · have hsb : specBlock (i, p) = some (pageBlock i (pyStrip (p.getD ""))) := by
            simp [specBlock, hstrip]
          rw [hsb, if_neg hstrip, ih (i + 1)]

theorem extractLoop_zero (pages : List (Option String)) (mp : Option Nat) :
    extractLoop pages mp 0 = specBlocks pages mp := by
  rw [extractLoop_eq]
  cases mp with
  | none => simp [specBlocks, specCap, List.enum_eq_enumFrom]
  | some m => simp [specBlocks, specCap, List.enum_eq_enumFrom]

theorem extract_some_spec (pages : List (Option String)) (mp : Option Nat) :
    extract_text_from_pdf (some pages) mp =
      (if pyStrip (pyJoin "\n\n" (specBlocks pages mp)) = "" then
        Except.error ExtractError.noExtractableText
      else Except.ok (pyStrip (pyJoin "\n\n" (specBlocks pages mp)))) := by
  show (let texts := extractLoop pages mp 0
    let full_text := pyStrip (pyJoin "\n\n" texts)
    if full_text = "" then Except.error ExtractError.noExtractableText
    else Except.ok full_text) = _
  rw [extractLoop_zero]

theorem strMk_data (s : String) : (⟨s.data⟩ : String) = s := by
  cases s
  rfl

theorem specBlocks_mem (pages : List (Option String)) (mp : Option Nat)
    (b : String) (hb : b ∈ specBlocks pages mp) :
    ∃ ip ∈ (pages.take (specCap mp pages.length)).enum,
      pyStrip (ip.2.getD "") ≠ "" ∧
      b = pageBlock ip.1 (pyStrip (ip.2.getD "")) := by
  obtain ⟨ip, hipmem, hipeq⟩ := List.mem_filterMap.mp hb
  by_cases hstrip : pyStrip (ip.2.getD "") = ""
  · exfalso
    have : specBlock ip = none := by simp [specBlock, hstrip]
    rw [this] at hipeq
    exact Option.noConfusion hipeq
  · have : specBlock ip = some (pageBlock ip.1 (pyStrip (ip.2.getD ""))) := by
      simp [specBlock, hstrip]
    rw [this] at hipeq
    exact ⟨ip, hipmem, hstrip, (Option.some.injEq _ _ ▸ hipeq).symm⟩

theorem specBlocks_block_head (pages : List (Option String)) (mp : Option Nat)
    (b : String) (hb : b ∈ specBlocks pages mp) :
    b.data.head? = some '-' := by
  obtain ⟨ip, _, _, hbeq⟩ := specBlocks_mem pages mp b hb
  rw [hbeq]
  exact pageBlock_head? ip.1 (pyStrip (ip.2.getD ""))

theorem specBlocks_block_getLast (pages : List (Option String)) (mp : Option Nat)
    (b : String) (hb : b ∈ specBlocks pages mp) :
    ∀ c, b.data.getLast? = some c → pyIsSpace c = false := by
  obtain ⟨ip, _, hne, hbeq⟩ := specBlocks_mem pages mp b hb
  intro c hc
  have hdata : (pyStrip (ip.2.getD "")).data ≠ [] := by
    intro hnil
    exact hne (String.ext hnil)
  rw [hbeq, pageBlock_getLast? ip.1 _ hdata] at hc
  exact pyStripL_getLast (ip.2.getD "").data c hc

theorem specBlocks_block_ne_nil (pages : List (Option String)) (mp : Option Nat)
    (b : String) (hb : b ∈ specBlocks pages mp) : b.data ≠ [] := by
  obtain ⟨ip, _, _, hbeq⟩ := specBlocks_mem pages mp b hb
  rw [hbeq]
  exact pageBlock_data_ne_nil ip.1 (pyStrip (ip.2.getD ""))

theorem joined_blocks_strip_id (pages : List (Option String)) (mp : Option Nat)
    (hne : specBlocks pages mp ≠ []) :
    pyStrip (pyJoin "\n\n" (specBlocks pages mp)) =
      pyJoin "\n\n" (specBlocks pages mp) := by
  cases hts : specBlocks pages mp with
  | nil => exact absurd hts hne
  | cons b rest =>
    have hbmem : b ∈ specBlocks pages mp := by rw [hts]; exact List.mem_cons_self b rest
    have hbhead : b.data.head? = some '-' := specBlocks_block_head pages mp b hbmem
    have hbne : b.data ≠ [] := specBlocks_block_ne_nil pages mp b hbmem
    have hjh : (pyJoin "\n\n" (b :: rest)).data.head? = some '-' := by
      rw [pyJoin_head? "\n\n" b rest hbne]
      exact hbhead
    obtain ⟨t, htmem, hjl⟩ := pyJoin_getLast? "\n\n" (b :: rest)
      (List.cons_ne_nil b rest)
      (fun u hu => specBlocks_block_ne_nil pages mp u (hts ▸ hu))
    have htne : t.data ≠ [] := specBlocks_block_ne_nil pages mp t (hts ▸ htmem)
    obtain ⟨c, hc⟩ := Option.isSome_iff_exists.mp
      (List.getLast?_isSome.mpr htne)
    have hcw : pyIsSpace c = false :=
      specBlocks_block_getLast pages mp t (hts ▸ htmem) c hc
    show (⟨pyStripL (pyJoin "\n\n" (b :: rest)).data⟩ : String) = _
    rw [pyStripL_eq_self (pyJoin "\n\n" (b :: rest)).data '-' c hjh (by decide)
      (by rw [hjl]; exact hc) hcw]

theorem joined_blocks_empty_iff (pages : List (Option String)) (mp : Option Nat) :
    pyStrip (pyJoin "\n\n" (specBlocks pages mp)) = "" ↔
      specBlocks pages mp = [] := by
  constructor
  · intro h
    by_contra hne
    obtain ⟨b, rest, hts⟩ := List.exists_cons_of_ne_nil hne
    have hbmem : b ∈ specBlocks pages mp := by
      rw [hts]; exact List.mem_cons_self b rest
    obtain ⟨pre, post, hdec⟩ :=
      pyJoin_mem_decomp "\n\n" (specBlocks pages mp) b hbmem
    have hbdash : '-' ∈ b.data :=
      List.mem_of_mem_head?
        (Option.mem_def.mpr (specBlocks_block_head pages mp b hbmem))
    have hdash : '-' ∈ (pyJoin "\n\n" (specBlocks pages mp)).data := by
      rw [hdec, String.data_append, String.data_append]
      exact List.mem_append.mpr (Or.inl (List.mem_append.mpr (Or.inr hbdash)))
    have hall := (pyStripL_eq_nil_iff _).mp ((pyStrip_eq_empty_iff _).mp h)
    have := hall '-' hdash
    exact absurd this (by decide)
  · intro h
    rw [h]
    rfl

theorem str_eq_empty_iff (s : String) : s = "" ↔ s.data = [] := by
  constructor
  · intro h
    rw [h]
  · intro h
    apply String.ext
    rw [h]

theorem isDigit_not_space (c : Char) (h : Char.isDigit c = true) :
    pyIsSpace c = false := by
  cases hs : pyIsSpace c
  · rfl
  · exfalso
    have := pyIsSpace_not_digit c hs
    simp only [pyIsDigit, Bool.or_eq_false_iff] at this
    rw [this.1] at h
    exact Bool.noConfusion h

theorem pyStripL_of_all_not_space (l : List Char)
    (h : ∀ c ∈ l, pyIsSpace c = false) : pyStripL l = l := by
  cases hl : l with
  | nil => rfl
  | cons a rest =>
    obtain ⟨b, hb⟩ := Option.isSome_iff_exists.mp
      (List.getLast?_isSome.mpr (List.cons_ne_nil a rest))
    have hbmem : b ∈ a :: rest := by
      have : b ∈ (a :: rest).getLast? := Option.mem_def.mpr hb
      exact List.mem_of_mem_getLast? this
    exact pyStripL_eq_self (a :: rest) a b rfl
      (h a (hl ▸ List.mem_cons_self a rest)) hb (h b (hl ▸ hbmem))

theorem pyIntL_all_digits (l : List Char) (hne : l ≠ [])
    (hall : l.all Char.isDigit = true) :
    pyIntL l = some ((decDigitsToNat l : Nat) : Int) := by
  have hnws : ∀ c ∈ l, pyIsSpace c = false := fun c hc =>
    isDigit_not_space c (List.all_eq_true.mp hall c hc)
  have hstrip : pyStripL l = l := pyStripL_of_all_not_space l hnws
  cases l with
  | nil => exact absurd rfl hne
  | cons c rest =>
    have hcd : Char.isDigit c = true :=
      List.all_eq_true.mp hall c (List.mem_cons_self c rest)
    have hplus : (c == '+') = false := by
      cases hc : c == '+'
      · rfl
      · exfalso
        have : c = '+' := beq_iff_eq.mp hc
        subst this
        exact Bool.noConfusion hcd
    have hminus : (c == '-') = false := by
      cases hc : c == '-'
      · rfl
      · exfalso
        have : c = '-' := beq_iff_eq.mp hc
        subst this
        exact Bool.noConfusion hcd
    unfold pyIntL
    rw [hstrip]
    simp only [hplus, hminus, Bool.false_eq_true, if_false]
    have habs : pyIntAbs (c :: rest) = some (decDigitsToNat (c :: rest)) := by
      unfold pyIntAbs
      rw [if_neg (by simp), if_pos hall]
    rw [habs]
    rfl

/-!  Claim theorems.  -/

/-- Claim C1, counterexample: the parser as the claim words it (splitting the
raw response into lines) disagrees with the code on the response `"\n78%"`:
the code first strips the response, so its first line is `78%` and the score
is 78, while the claimed pipeline's first line is empty and yields no score. -/
theorem c1_counterexample :
    submit3Score "\n78%" = some 78 ∧ claimedC1Score "\n78%" = none ∧
      claimedC1Score "\n78%" ≠ submit3Score "\n78%" := by
  refine ⟨by decide, by decide, by decide⟩

/-- Claim C1 as amended: for every model-response string, the Score Parser
strips leading and trailing whitespace from the response, splits the stripped
text into lines, takes the first line (the empty string if no lines exist),
extracts all digit characters from that line in order into one digit string,
and parses it as an integer only when that digit string is non-empty. -/
theorem c1_amended_strip_then_parse :
    ∀ response : String, amendedC1Score response = submit3Score response := by
  intro r
  unfold amendedC1Score submit3Score submit3Digits submit3FirstLine
  cases hls : pySplitlines (pyStrip r) with
  | nil => rfl
  | cons l rest =>
    show (if (l.data.filter pyIsDigit).isEmpty then none
        else pyInt ⟨l.data.filter pyIsDigit⟩) =
      (if ((pyStrip l).data.filter pyIsDigit).isEmpty then none
        else match pyInt ⟨(pyStrip l).data.filter pyIsDigit⟩ with
          | some n => some n
          | none => none)
    rw [pyStrip_data, filter_pyStripL]
    cases hpi : pyInt ⟨l.data.filter pyIsDigit⟩ <;>
      cases hie : (l.data.filter pyIsDigit).isEmpty <;> simp [hpi, hie]

/-- Claim C2: the reported match score is the parsed integer exactly when that
integer lies in [0,100], absent otherwise; and a parse failure (empty digit
string, or an integer-conversion error) is the normal `none` outcome of
`submit3Score`, not an exception — the embedding is total and the failing
conversion is mapped to `none` by the `except ValueError` branch. -/
theorem c2_score_in_range_or_absent (response : String) :
    (∀ n : Int, submit3MatchScore response = some n ↔
      (submit3Score response = some n ∧ 0 ≤ n ∧ n ≤ 100)) ∧
    (submit3Score response = none ↔
      (submit3Digits response = "" ∨ pyInt (submit3Digits response) = none)) := by
  constructor
  · intro n
    unfold submit3MatchScore
    cases hs : submit3Score response with
    | none => simp
    | some s =>
      show (if 0 ≤ s ∧ s ≤ 100 then some s else none) = some n ↔
        some s = some n ∧ 0 ≤ n ∧ n ≤ 100
      by_cases hr : 0 ≤ s ∧ s ≤ 100
      · rw [if_pos hr]
        constructor
        · intro h
          have hsn : s = n := by injection h
          subst hsn
          exact ⟨rfl, hr.1, hr.2⟩
        · intro h
          exact h.1
      · rw [if_neg hr]
        constructor
        · intro h
          exact Option.noConfusion h
        · intro h
          have hsn : s = n := by injection h.1
          subst hsn
          exact absurd ⟨h.2.1, h.2.2⟩ hr
  · unfold submit3Score
    by_cases hie : (submit3Digits response).data.isEmpty = true
    · rw [if_pos hie]
      constructor
      · intro _
        exact Or.inl ((str_eq_empty_iff _).mpr (List.isEmpty_iff.mp hie))
      · intro _
        rfl
    · rw [if_neg hie]
      cases hpi : pyInt (submit3Digits response) with
      | some v =>
        constructor
        · intro h
          exact Option.noConfusion h
        · intro h
          rcases h with h | h
          · exact absurd (List.isEmpty_iff.mpr ((str_eq_empty_iff _).mp h)) hie
          · exact Option.noConfusion h
      | none =>
        exact ⟨fun _ => Or.inr rfl, fun _ => rfl⟩

/-- Claim C3: the spec's Score Parser test vectors, evaluated on the code:
first line `78%` gives score 78; first line `105%` parses to 105 which is out
of [0,100], so the reported score is absent; `no number here` has an empty
digit string and no score; and on first line `7 of 8 matched` the digits
concatenate to `78` and the score is 78. -/
theorem c3_spec_vectors :
    submit3MatchScore "78%\nExplanation..." = some 78 ∧
    submit3Score "105%\n..." = some 105 ∧
    submit3MatchScore "105%\n..." = none ∧
    submit3Digits "no number here" = "" ∧
    submit3MatchScore "no number here" = none ∧
    submit3Digits "7 of 8 matched\n..." = "78" ∧
    submit3MatchScore "7 of 8 matched\n..." = some 78 := by
  refine ⟨by decide, by decide, by decide, by decide, by decide, by decide,
    by decide⟩

/-- Claim C10, counterexample: on the response `"²%"` the extracted digit
string is the non-empty `"²"` (Python's digit test accepts the superscript
two), yet the integer conversion fails (`int("²")` raises ValueError, since
the superscript is not a decimal digit), so the conversion-error fallback
branch IS taken: the digit string is non-empty and the score is still
absent.  The branch is therefore reachable, contrary to the claim. -/
theorem c10_counterexample :
    submit3Digits "²%" = "²" ∧ submit3Digits "²%" ≠ "" ∧
      pyInt (submit3Digits "²%") = none ∧ submit3Score "²%" = none := by
  refine ⟨by decide, by decide, by decide, by decide⟩

/-- Claim C10 as amended: the conversion-error fallback is reachable (the
digit test accepts digit-classified characters, such as superscript digits,
that the integer conversion rejects); whenever the non-empty extracted digit
string consists of decimal digit characters only, the conversion does
succeed and the parsed score is present. -/
theorem c10_decimal_digits_convert (response : String)
    (h1 : (submit3Digits response).data ≠ [])
    (h2 : (submit3Digits response).data.all Char.isDigit = true) :
    submit3Score response =
      some ((decDigitsToNat (submit3Digits response).data : Nat) : Int) := by
  unfold submit3Score
  rw [if_neg (by
    intro hie
    exact h1 (List.isEmpty_iff.mp hie))]
  have hpi : pyInt (submit3Digits response) =
      some ((decDigitsToNat (submit3Digits response).data : Nat) : Int) :=
    pyIntL_all_digits (submit3Digits response).data h1 h2
  rw [hpi]

/-- Witness for `c10_decimal_digits_convert` at the concrete response
`"78%"`, whose digit string is `"78"`. -/
theorem c10_decimal_digits_convert_witness :
    (submit3Digits "78%").data ≠ [] ∧
    (submit3Digits "78%").data.all Char.isDigit = true ∧
    submit3Score "78%" =
      some ((decDigitsToNat (submit3Digits "78%").data : Nat) : Int) :=
  ⟨by decide, by decide, c10_decimal_digits_convert "78%" (by decide) (by decide)⟩

theorem specBlock_eq_none_iff (ip : Nat × Option String) :
    specBlock ip = none ↔ pyStrip (ip.2.getD "") = "" := by
  unfold specBlock
  by_cases h : pyStrip (ip.2.getD "") = ""
  · simp [h]
  · simp [h]

/-- Claim C4: for every document and page cap, the page loop visits the pages
in order from the first up to the cap, drops exactly the pages whose text is
only whitespace without stopping the scan, and the result is those pages'
labelled blocks (page-number header above the page text) joined by blank
lines, in page order — `specBlocks` is this declarative description. -/
theorem c4_ordered_skip_and_join :
    ∀ (pages : List (Option String)) (mp : Option Nat),
      extractLoop pages mp 0 = specBlocks pages mp ∧
      extract_text_from_pdf (some pages) mp =
        (if pyStrip (pyJoin "\n\n" (specBlocks pages mp)) = "" then
          Except.error ExtractError.noExtractableText
        else Except.ok (pyStrip (pyJoin "\n\n" (specBlocks pages mp)))) :=
  fun pages mp => ⟨extractLoop_zero pages mp, extract_some_spec pages mp⟩

/-- Claim C5, counterexample: with a page cap of 0, a document whose only
page has non-whitespace text still fails with the no-extractable-text error,
so the error is NOT raised exactly when every page is blank. -/
theorem c5_counterexample :
    extract_text_from_pdf (some [some "hello"]) (some 0) =
      Except.error ExtractError.noExtractableText ∧
    pyStrip ((some "hello" : Option String).getD "") ≠ "" :=
  ⟨rfl, by decide⟩

/-- Claim C5 as amended: extraction fails with the missing-input error exactly
when no document is supplied, fails with the no-extractable-text error exactly
when a document is supplied but every page read under the cap (every page,
when no cap is given) yields empty or whitespace-only text, and in all other
cases succeeds with a non-empty result. -/
theorem c5_amended_error_conditions :
    ∀ (doc : Option (List (Option String))) (mp : Option Nat),
      (extract_text_from_pdf doc mp = Except.error ExtractError.missingInput ↔
        doc = none) ∧
      (∀ pages, doc = some pages →
        ((extract_text_from_pdf doc mp =
            Except.error ExtractError.noExtractableText ↔
          ∀ ip ∈ (pages.take (specCap mp pages.length)).enum,
            pyStrip (ip.2.getD "") = "") ∧
        ((¬ ∀ ip ∈ (pages.take (specCap mp pages.length)).enum,
            pyStrip (ip.2.getD "") = "") →
          ∃ s, extract_text_from_pdf doc mp = Except.ok s ∧ s ≠ ""))) := by
  intro doc mp
  cases doc with
  | none =>
    constructor
    · exact ⟨fun _ => rfl, fun _ => rfl⟩
    · intro pages h
      exact Option.noConfusion h
  | some pages0 =>
    have hblank : (∀ ip ∈ (pages0.take (specCap mp pages0.length)).enum,
        pyStrip (ip.2.getD "") = "") ↔ specBlocks pages0 mp = [] := by
      rw [specBlocks, List.filterMap_eq_nil_iff]
      constructor
      · intro h ip hip
        exact (specBlock_eq_none_iff ip).mpr (h ip hip)
      · intro h ip hip
        exact (specBlock_eq_none_iff ip).mp (h ip hip)
    constructor
    · rw [extract_some_spec]
      by_cases hft : pyStrip (pyJoin "\n\n" (specBlocks pages0 mp)) = ""
      · rw [if_pos hft]
        constructor
        · intro h
          exact absurd (by injection h) ExtractError.noConfusion
        · intro h
          exact Option.noConfusion h
      · rw [if_neg hft]
        constructor
        · intro h
          exact Except.noConfusion h
        · intro h
          exact Option.noConfusion h
    · intro pages hp
      have hpp : pages0 = pages := by injection hp
      subst hpp
      constructor
      · rw [extract_some_spec]
        by_cases hft : pyStrip (pyJoin "\n\n" (specBlocks pages0 mp)) = ""
        · rw [if_pos hft]
          constructor
          · intro _
            exact hblank.mpr ((joined_blocks_empty_iff pages0 mp).mp hft)
          · intro _
            rfl
        · rw [if_neg hft]
          constructor
          · intro h
            exact Except.noConfusion h
          · intro h
            exact absurd ((joined_blocks_empty_iff pages0 mp).mpr
              (hblank.mp h)) hft
      · intro hnotall
        have hbne : specBlocks pages0 mp ≠ [] := fun h0 =>
          hnotall (hblank.mpr h0)
        have hft : pyStrip (pyJoin "\n\n" (specBlocks pages0 mp)) ≠ "" :=
          fun h0 => hbne ((joined_blocks_empty_iff pages0 mp).mp h0)
        refine ⟨pyStrip (pyJoin "\n\n" (specBlocks pages0 mp)), ?_, hft⟩
        rw [extract_some_spec, if_neg hft]

/-- Witness for `c5_amended_error_conditions` at the concrete document
`[some "hi"]` with no cap: its page is non-blank, so extraction succeeds
with a non-empty result. -/
theorem c5_amended_witness :
    (¬ ∀ ip ∈ (([some "hi"] : List (Option String)).take
        (specCap none ([some "hi"] : List (Option String)).length)).enum,
        pyStrip (ip.2.getD "") = "") ∧
    (∃ s, extract_text_from_pdf (some [some "hi"]) none =
        Except.ok s ∧ s ≠ "") :=
  ⟨by decide,
    ((c5_amended_error_conditions (some [some "hi"]) none).2
      [some "hi"] rfl).2 (by decide)⟩

/-- Claim C6: for a document with a page whose text is not only whitespace,
extraction (without a cap) succeeds with a non-empty result, the result is
the blank-line join of the labelled blocks taken in page order
(`specBlocks`, a filtered map over the index-ordered page enumeration), that
page's stripped content with its page-number header is one of those blocks,
and it occurs contiguously inside the result. -/
theorem c6_nonblank_page_labeled_block :
    ∀ (pages : List (Option String)) (i : Nat) (p : Option String),
      pages[i]? = some p →
      pyStrip (p.getD "") ≠ "" →
      ∃ s, extract_text_from_pdf (some pages) none = Except.ok s ∧ s ≠ "" ∧
        s = pyJoin "\n\n" (specBlocks pages none) ∧
        pageBlock i (pyStrip (p.getD "")) ∈ specBlocks pages none ∧
        ∃ pre post : String,
          s = pre ++ pageBlock i (pyStrip (p.getD "")) ++ post := by
  intro pages i p hget hne
  have hmem_enum : (i, p) ∈ pages.enum :=
    List.mk_mem_enum_iff_getElem?.mpr hget
  have hsb : specBlock (i, p) = some (pageBlock i (pyStrip (p.getD ""))) := by
    simp [specBlock, hne]
  have hblocks_all : specBlocks pages none = pages.enum.filterMap specBlock := by
    unfold specBlocks specCap
    rw [List.take_length]
  have hbmem : pageBlock i (pyStrip (p.getD "")) ∈ specBlocks pages none := by
    rw [hblocks_all]
    exact List.mem_filterMap.mpr ⟨(i, p), hmem_enum, hsb⟩
  have hblocksne : specBlocks pages none ≠ [] := by
    intro h0
    rw [h0] at hbmem
    exact List.not_mem_nil _ hbmem
  have hftne : pyStrip (pyJoin "\n\n" (specBlocks pages none)) ≠ "" := by
    intro h0
    exact hblocksne ((joined_blocks_empty_iff pages none).mp h0)
  have hid := joined_blocks_strip_id pages none hblocksne
  refine ⟨pyStrip (pyJoin "\n\n" (specBlocks pages none)), ?_, hftne, hid,
    hbmem, ?_⟩
  · rw [extract_some_spec, if_neg hftne]
  · obtain ⟨pre, post, hdec⟩ :=
      pyJoin_mem_decomp "\n\n" (specBlocks pages none) _ hbmem
    exact ⟨pre, post, by rw [hid, hdec]⟩

/-- Witness for `c6_nonblank_page_labeled_block` at the one-page document
`[some "hi"]`. -/
theorem c6_witness :
    ([some "hi"] : List (Option String))[0]? = some (some "hi") ∧
    pyStrip ((some "hi" : Option String).getD "") ≠ "" ∧
    (∃ s, extract_text_from_pdf (some [some "hi"]) none = Except.ok s ∧
      s ≠ "" ∧
      s = pyJoin "\n\n" (specBlocks [some "hi"] none) ∧
      pageBlock 0 (pyStrip ((some "hi" : Option String).getD "")) ∈
        specBlocks [some "hi"] none ∧
      ∃ pre post : String,
        s = pre ++
          pageBlock 0 (pyStrip ((some "hi" : Option String).getD "")) ++ post) :=
  ⟨rfl, by decide,
    c6_nonblank_page_labeled_block [some "hi"] 0 (some "hi") rfl (by decide)⟩

/-- Claim C7: extraction reads no page beyond the cap — any two documents
agreeing on their first `m` pages extract identically under cap `m`. -/
theorem c7_cap_bounds_reads :
    ∀ (m : Nat) (pages1 pages2 : List (Option String)),
      pages1.take m = pages2.take m →
      extract_text_from_pdf (some pages1) (some m) =
        extract_text_from_pdf (some pages2) (some m) := by
  intro m p1 p2 h
  have key : ∀ pages : List (Option String),
      specBlocks pages (some m) = ((pages.take m).enum).filterMap specBlock :=
    fun pages => rfl
  rw [extract_some_spec, extract_some_spec, key p1, key p2, h]

/-- Witness for `c7_cap_bounds_reads`: two documents sharing their first page
but differing on the second extract identically under cap 1. -/
theorem c7_witness :
    ([some "a", some "b"] : List (Option String)).take 1 =
      ([some "a", some "c"] : List (Option String)).take 1 ∧
    extract_text_from_pdf (some [some "a", some "b"]) (some 1) =
      extract_text_from_pdf (some [some "a", some "c"]) (some 1) :=
  ⟨by decide,
    c7_cap_bounds_reads 1 [some "a", some "b"] [some "a", some "c"] (by decide)⟩

/-- Claim C9: with a page cap of 0, extraction of any supplied document —
including one whose pages hold non-whitespace text — collects no blocks and
fails with the no-extractable-text error. -/
theorem c9_zero_cap_no_text :
    ∀ pages : List (Option String),
      extract_text_from_pdf (some pages) (some 0) =
        Except.error ExtractError.noExtractableText := by
  intro pages
  cases pages with
  | nil => rfl
  | cons p rest => rfl

/-- Claim C8, counterexample: for the non-blank job text `Python developer`
the code's second request part is the labelled `Job Description:`-prefixed
text, not the bare trimmed text the claim describes. -/
theorem c8_counterexample :
    claimedC8Parts "Python developer" "RESUME" "INSTR" ≠
      get_gemini_response_parts "Python developer" "RESUME" "INSTR" ∧
    get_gemini_response_parts "Python developer" "RESUME" "INSTR" =
      ["INSTR", "Job Description:\nPython developer",
        "Candidate Resume (extracted from PDF):\nRESUME"] ∧
    claimedC8Parts "Python developer" "RESUME" "INSTR" =
      ["INSTR", "Python developer",
        "Candidate Resume (extracted from PDF):\nRESUME"] := by
  refine ⟨by decide, by decide, by decide⟩

/-- Claim C8 as amended: the request is instruction text, then the
job-description part — the trimmed job text prefixed with the fixed
`Job Description:` label, the whole part replaced by the fixed fallback
sentence when the job text is empty or whitespace-only — then the resume
text prefixed with its label. -/
theorem c8_labeled_ordered_parts :
    ∀ jd_text resume_text instruction : String,
      get_gemini_response_parts jd_text resume_text instruction =
        amendedC8Parts jd_text resume_text instruction := by
  intro jd r ins
  unfold get_gemini_response_parts amendedC8Parts
  by_cases h : pyStrip jd = ""
  · rw [if_neg (fun hc => hc.2 h), if_pos h]
  · have hjd : jd ≠ "" := by
      intro h0
      rw [h0] at h
      exact h rfl
    rw [if_pos ⟨hjd, h⟩, if_neg h]
